import Mathlib

/-!
Verification of the RESOLVE capacity-expansion model formulation
(src/resolve_code/model_formulation.py and src/resolve_code/load_data.py).

The Python model is shallowly embedded: Pyomo sets become lists, Pyomo
params become functions, constraint rules become Prop-valued functions on
an explicit solution record, and construction-time validation that can
raise becomes Except-valued construction functions.  Machine reals are
modelled by rationals; timepoint, period, day and hour identifiers are
integers, as in the source (Pyomo PositiveIntegers / NonNegativeIntegers).
-/

/-- One row of the timepoints input table: the timepoint id together with
its period, month, day and hour_of_day attributes
(model.period, model.month, model.day, model.hour_of_day params). -/
structure TimepointRec where
  tp : Int
  period : Int
  month : Int
  day : Int
  hour_of_day : Int
deriving DecidableEq, Repr

/-- Timepoints that share a given (period, day) key, as collected by the
loops in first_timepoint_of_day_init and last_timepoint_of_day_init. -/
def timepoints_on_day (m : List TimepointRec) (p d : Int) : List Int :=
  (m.filter (fun r => r.period == p && r.day == d)).map (fun r => r.tp)

/-- Embedding of first_timepoint_of_day_init: the minimum timepoint with
the given period and day (none when the day has no timepoints, where the
Python min() raises). -/
def first_timepoint_of_day (m : List TimepointRec) (p d : Int) : Option Int :=
  (timepoints_on_day m p d).min?

/-- Embedding of last_timepoint_of_day_init: the maximum timepoint with
the given period and day. -/
def last_timepoint_of_day (m : List TimepointRec) (p d : Int) : Option Int :=
  (timepoints_on_day m p d).max?

/-- Embedding of previous_timepoint_init for one timepoint record: the
last timepoint of the record's own (period, day) when the record is the
first timepoint of that day, and otherwise timepoint - 1. -/
def previous_timepoint (m : List TimepointRec) (r : TimepointRec) : Option Int := do
  let ftp ← first_timepoint_of_day m r.period r.day
  let ltp ← last_timepoint_of_day m r.period r.day
  pure (if r.tp = ftp then ltp else r.tp - 1)

/-- Embedding of next_timepoint_init for one timepoint record: the first
timepoint of the record's own (period, day) when the record is the last
timepoint of that day, and otherwise timepoint + 1. -/
def next_timepoint (m : List TimepointRec) (r : TimepointRec) : Option Int := do
  let ftp ← first_timepoint_of_day m r.period r.day
  let ltp ← last_timepoint_of_day m r.period r.day
  pure (if r.tp = ltp then ftp else r.tp + 1)

/-- Embedding of resolve_model.timepoints_per_day = Param(initialize=24):
a globally fixed constant, not a per-day count. -/
def timepoints_per_day : Int := 24

/-- Concrete three-hour day used to exercise the temporal index. -/
def m1 : List TimepointRec :=
  [⟨1, 1, 1, 1, 1⟩, ⟨2, 1, 1, 1, 2⟩, ⟨3, 1, 1, 1, 3⟩]

/-- Values assigned by a candidate solution to the unit-commitment
variables and expressions of the model, indexed by resource and
timepoint id (Commit_Units, Start_Units, Shut_Down_Units,
Provide_Power_MW). -/
structure UCSolution where
  Commit_Units : Int → Int → ℚ
  Start_Units : Int → Int → ℚ
  Shut_Down_Units : Int → Int → ℚ
  Provide_Power_MW : Int → Int → ℚ

/-- Embedding of dispatchable_resource_commitment_tracking_rule: the
constraint emitted for (resource, timepoint), with tPrev standing for
model.previous_timepoint[timepoint]. -/
def dispatchable_resource_commitment_tracking_rule (sol : UCSolution)
    (resource t tPrev : Int) : Prop :=
  sol.Commit_Units resource t =
    sol.Commit_Units resource tPrev
    + sol.Start_Units resource t
    - sol.Shut_Down_Units resource t

/-- Modelled from the spec wording of the commitment-conservation
property, for comparison with the emitted constraint: Commit_Units[t] -
Commit_Units[previous(t)] == Start_Units[t] - Shut_Down_Units[t]. -/
def commit_units_conservation (sol : UCSolution) (resource t tPrev : Int) : Prop :=
  sol.Commit_Units resource t - sol.Commit_Units resource tPrev =
    sol.Start_Units resource t - sol.Shut_Down_Units resource t

/-- Concrete solution assigning zero to every variable. -/
def zeroUCSol : UCSolution :=
  ⟨fun _ _ => 0, fun _ _ => 0, fun _ _ => 0, fun _ _ => 0⟩

/-- Model data consulted by storage_energy_tracking_rule: the reserve
membership sets, the reserve dispatch fractions, and the per-technology
charging and discharging efficiencies. -/
structure StorageModel where
  REGULATION_RESERVE_RESOURCES : List Int
  LOAD_FOLLOWING_RESERVE_RESOURCES : List Int
  reg_dispatch_fraction : ℚ
  lf_reserve_dispatch_fraction : ℚ
  technology : Int → Int
  charging_efficiency : Int → ℚ
  discharging_efficiency : Int → ℚ

/-- Values assigned by a candidate solution to the storage variables,
indexed by resource and timepoint id. -/
structure StorageSolution where
  Energy_in_Storage_MWh : Int → Int → ℚ
  Charge_Storage_MW : Int → Int → ℚ
  Provide_Power_MW : Int → Int → ℚ
  Provide_Downward_Reg_MW : Int → Int → ℚ
  Provide_Upward_Reg_MW : Int → Int → ℚ
  Provide_LF_Downward_Reserve_MW : Int → Int → ℚ
  Provide_LF_Upward_Reserve_MW : Int → Int → ℚ

/-- Accumulation of charging_mwh inside storage_energy_tracking_rule:
base charging plus conditional regulation and load-following terms. -/
def storage_charging_mwh (mdl : StorageModel) (sol : StorageSolution)
    (storage_resource t : Int) : ℚ :=
  let charging_mwh : ℚ := 0 + sol.Charge_Storage_MW storage_resource t
  let charging_mwh :=
    if storage_resource ∈ mdl.REGULATION_RESERVE_RESOURCES then
      charging_mwh
      + sol.Provide_Downward_Reg_MW storage_resource t * mdl.reg_dispatch_fraction
    else charging_mwh
  let charging_mwh :=
    if storage_resource ∈ mdl.LOAD_FOLLOWING_RESERVE_RESOURCES then
      charging_mwh
      + sol.Provide_LF_Downward_Reserve_MW storage_resource t * mdl.lf_reserve_dispatch_fraction
    else charging_mwh
  charging_mwh

/-- Accumulation of discharging_mwh inside storage_energy_tracking_rule:
base discharging plus conditional regulation and load-following terms. -/
def storage_discharging_mwh (mdl : StorageModel) (sol : StorageSolution)
    (storage_resource t : Int) : ℚ :=
  let discharging_mwh : ℚ := 0 + sol.Provide_Power_MW storage_resource t
  let discharging_mwh :=
    if storage_resource ∈ mdl.REGULATION_RESERVE_RESOURCES then
      discharging_mwh
      + sol.Provide_Upward_Reg_MW storage_resource t * mdl.reg_dispatch_fraction
    else discharging_mwh
  let discharging_mwh :=
    if storage_resource ∈ mdl.LOAD_FOLLOWING_RESERVE_RESOURCES then
      discharging_mwh
      + sol.Provide_LF_Upward_Reserve_MW storage_resource t * mdl.lf_reserve_dispatch_fraction
    else discharging_mwh
  discharging_mwh

/-- Embedding of storage_energy_tracking_rule: the constraint emitted for
(storage_resource, timepoint), with tNext standing for
model.next_timepoint[timepoint]. -/
def storage_energy_tracking_rule (mdl : StorageModel) (sol : StorageSolution)
    (storage_resource t tNext : Int) : Prop :=
  sol.Energy_in_Storage_MWh storage_resource tNext =
    sol.Energy_in_Storage_MWh storage_resource t
    + storage_charging_mwh mdl sol storage_resource t
      * mdl.charging_efficiency (mdl.technology storage_resource)
    - storage_discharging_mwh mdl sol storage_resource t
      / mdl.discharging_efficiency (mdl.technology storage_resource)

/-- Modelled from the spec wording of the storage energy-balance
recursion, for comparison with the emitted constraint. -/
def storage_energy_tracking_spec (mdl : StorageModel) (sol : StorageSolution)
    (s t tNext : Int) : Prop :=
  sol.Energy_in_Storage_MWh s tNext =
    sol.Energy_in_Storage_MWh s t
    + (sol.Charge_Storage_MW s t
        + (if s ∈ mdl.REGULATION_RESERVE_RESOURCES then
            mdl.reg_dispatch_fraction * sol.Provide_Downward_Reg_MW s t else 0)
        + (if s ∈ mdl.LOAD_FOLLOWING_RESERVE_RESOURCES then
            mdl.lf_reserve_dispatch_fraction * sol.Provide_LF_Downward_Reserve_MW s t else 0))
      * mdl.charging_efficiency (mdl.technology s)
    - (sol.Provide_Power_MW s t
        + (if s ∈ mdl.REGULATION_RESERVE_RESOURCES then
            mdl.reg_dispatch_fraction * sol.Provide_Upward_Reg_MW s t else 0)
        + (if s ∈ mdl.LOAD_FOLLOWING_RESERVE_RESOURCES then
            mdl.lf_reserve_dispatch_fraction * sol.Provide_LF_Upward_Reserve_MW s t else 0))
      / mdl.discharging_efficiency (mdl.technology s)

/-- Concrete storage model: resource 1 provides both regulation and
load following; both efficiencies are 9/10. -/
def stModelA : StorageModel :=
  ⟨[1], [1], 1/10, 1/5, fun _ => 7, fun _ => 9/10, fun _ => 9/10⟩

/-- Concrete storage solution assigning zero everywhere. -/
def zeroStorageSol : StorageSolution :=
  ⟨fun _ _ => 0, fun _ _ => 0, fun _ _ => 0, fun _ _ => 0,
   fun _ _ => 0, fun _ _ => 0, fun _ _ => 0⟩

/-- Model data consulted by the unit-commitment set algebra and ramp
rules: the base resource set, the resource-to-technology map, the
per-technology boolean flags and physical parameters, and the global
ramp_relax constant (Param(initialize=10 ** -4) in the source). -/
structure UCSetModel where
  RESOURCES : List Int
  technology : Int → Int
  thermal : Int → Bool
  dispatchable : Int → Bool
  ramp_rate_fraction : Int → ℚ
  min_stable_level_fraction : Int → ℚ
  unit_size_mw : Int → ℚ
  ramp_relax : ℚ

/-- Embedding of THERMAL_RESOURCES: resources whose technology carries
the thermal flag. -/
def THERMAL_RESOURCES (mdl : UCSetModel) : List Int :=
  mdl.RESOURCES.filter (fun r => mdl.thermal (mdl.technology r))

/-- Embedding of DISPATCHABLE_RESOURCES: thermal resources whose
technology carries the dispatchable flag. -/
def DISPATCHABLE_RESOURCES (mdl : UCSetModel) : List Int :=
  (THERMAL_RESOURCES mdl).filter (fun r => mdl.dispatchable (mdl.technology r))

/-- Embedding of DISPATCHABLE_RAMP_LIMITED_RESOURCES: dispatchable
resources with ramp_rate_fraction strictly below 1. -/
def DISPATCHABLE_RAMP_LIMITED_RESOURCES (mdl : UCSetModel) : List Int :=
  (DISPATCHABLE_RESOURCES mdl).filter
    (fun r => decide (mdl.ramp_rate_fraction (mdl.technology r) < 1))

/-- Embedding of fully_operational_units_def_rule: the rule body, with
tNext standing for model.next_timepoint[timepoint]. -/
def fully_operational_units_def_rule (sol : UCSolution)
    (resource t tNext : Int) : ℚ :=
  sol.Commit_Units resource t
  - sol.Start_Units resource t
  - sol.Shut_Down_Units resource tNext

/-- Embedding of the Fully_Operational_Units Expression declaration: the
rule evaluated at (resource, timepoint), defined only when the resource
lies in the DISPATCHABLE_RAMP_LIMITED_RESOURCES index set. -/
def Fully_Operational_Units (mdl : UCSetModel) (m : List TimepointRec)
    (sol : UCSolution) (resource : Int) (r : TimepointRec) : Option ℚ :=
  if resource ∈ DISPATCHABLE_RAMP_LIMITED_RESOURCES mdl then
    (next_timepoint m r).map
      (fun tNext => fully_operational_units_def_rule sol resource r.tp tNext)
  else none

/-- Embedding of define_start_capacity (Start_Capacity_MW Expression). -/
def Start_Capacity_MW (mdl : UCSetModel) (sol : UCSolution)
    (resource t : Int) : ℚ :=
  sol.Start_Units resource t * mdl.unit_size_mw (mdl.technology resource)

/-- Embedding of define_commit_capacity (Commit_Capacity_MW Expression). -/
def Commit_Capacity_MW (mdl : UCSetModel) (sol : UCSolution)
    (resource t : Int) : ℚ :=
  sol.Commit_Units resource t * mdl.unit_size_mw (mdl.technology resource)

/-- Embedding of dispatchable_resource_ramp_up_rule: none models
Constraint.Skip; some carries the emitted inequality.  tPrev stands for
model.previous_timepoint[timepoint]. -/
def dispatchable_resource_ramp_up_rule (mdl : UCSetModel) (sol : UCSolution)
    (resource t tPrev : Int) : Option Prop :=
  if mdl.ramp_rate_fraction (mdl.technology resource) ≥
      1 - mdl.min_stable_level_fraction (mdl.technology resource) then
    none
  else
    some (sol.Provide_Power_MW resource t - sol.Provide_Power_MW resource tPrev ≤
      (Commit_Capacity_MW mdl sol resource t - Start_Capacity_MW mdl sol resource t)
        * mdl.ramp_rate_fraction (mdl.technology resource)
      + Start_Capacity_MW mdl sol resource t
        * mdl.min_stable_level_fraction (mdl.technology resource)
      + sol.Start_Units resource t * mdl.ramp_relax)

/-- Embedding of dispatchable_resource_ramp_down_rule: none models
Constraint.Skip; some carries the emitted inequality. -/
def dispatchable_resource_ramp_down_rule (mdl : UCSetModel) (sol : UCSolution)
    (resource t tPrev : Int) : Option Prop :=
  if mdl.ramp_rate_fraction (mdl.technology resource) ≥
      1 - mdl.min_stable_level_fraction (mdl.technology resource) then
    none
  else
    some (-(sol.Provide_Power_MW resource t - sol.Provide_Power_MW resource tPrev) ≤
      (Commit_Capacity_MW mdl sol resource t - Start_Capacity_MW mdl sol resource t)
        * mdl.ramp_rate_fraction (mdl.technology resource)
      + sol.Shut_Down_Units resource t
        * mdl.unit_size_mw (mdl.technology resource)
        * mdl.min_stable_level_fraction (mdl.technology resource)
      + sol.Shut_Down_Units resource t * mdl.ramp_relax)

/-- Concrete model whose single resource is dispatchable but not
ramp-limited (ramp_rate_fraction = 1). -/
def mdlC5 : UCSetModel :=
  ⟨[1], fun _ => 1, fun _ => true, fun _ => true,
   fun _ => 1, fun _ => 1/2, fun _ => 100, 1/10000⟩

/-- Concrete ramp-limited model with ramp_rate_fraction = 0 and
min_stable_level_fraction = 0. -/
def mdlC5b : UCSetModel :=
  ⟨[1], fun _ => 1, fun _ => true, fun _ => true,
   fun _ => 0, fun _ => 0, fun _ => 100, 1/10000⟩

/-- Concrete model in the skip regime of the ramp rules:
ramp_rate_fraction = 2 is at least 1 - min_stable_level_fraction = 1. -/
def mdlR1 : UCSetModel :=
  ⟨[1], fun _ => 1, fun _ => true, fun _ => true,
   fun _ => 2, fun _ => 0, fun _ => 100, 1/10000⟩

/-- Embedding of prestart_to_start_definition: the timepoint index at
which Start_Units is read for PreStart_Units[resource, timepoint].  When
timepoint + min_down_time passes the last timepoint of the record's day,
the code subtracts the globally fixed timepoints_per_day = 24. -/
def prestart_to_start_timepoint (m : List TimepointRec) (min_down_time : Int)
    (r : TimepointRec) : Option Int := do
  let ltp ← last_timepoint_of_day m r.period r.day
  let day_wrap := if r.tp + min_down_time > ltp then timepoints_per_day else 0
  pure (r.tp + min_down_time - day_wrap)

/-- Embedding of preshut_down_to_shut_down_definition: the timepoint
index at which Shut_Down_Units is read for PreShut_Down_Units, with the
same globally fixed 24-timepoint wrap. -/
def preshut_down_to_shut_down_timepoint (m : List TimepointRec) (min_up_time : Int)
    (r : TimepointRec) : Option Int := do
  let ltp ← last_timepoint_of_day m r.period r.day
  let day_wrap := if r.tp + min_up_time > ltp then timepoints_per_day else 0
  pure (r.tp + min_up_time - day_wrap)

/-- Embedding of the index arithmetic of define_starting_units: the list
of previous timepoints over which PreStart_Units is summed.  In the
wrapped branch the code adds the globally fixed timepoints_per_day = 24
to indices that fall before the first timepoint of the day. -/
def starting_units_lookback (m : List TimepointRec) (min_down_time : Int)
    (r : TimepointRec) : Option (List Int) := do
  let ftp ← first_timepoint_of_day m r.period r.day
  if r.tp - min_down_time < ftp then
    pure ((List.range' 1 (min_down_time - 1).toNat).map (fun pt =>
      if r.tp - (pt : Int) ≥ ftp then r.tp - (pt : Int)
      else r.tp + timepoints_per_day - (pt : Int)))
  else
    pure ((List.range' 1 (min_down_time - 1).toNat).map (fun pt => r.tp - (pt : Int)))

/-- Embedding of the index arithmetic of define_shutting_down_units:
identical to starting_units_lookback but driven by min_up_time. -/
def shutting_down_units_lookback (m : List TimepointRec) (min_up_time : Int)
    (r : TimepointRec) : Option (List Int) := do
  let ftp ← first_timepoint_of_day m r.period r.day
  if r.tp - min_up_time < ftp then
    pure ((List.range' 1 (min_up_time - 1).toNat).map (fun pt =>
      if r.tp - (pt : Int) ≥ ftp then r.tp - (pt : Int)
      else r.tp + timepoints_per_day - (pt : Int)))
  else
    pure ((List.range' 1 (min_up_time - 1).toNat).map (fun pt => r.tp - (pt : Int)))

/-- Concrete four-hour day (period 1, day 1, timepoints 1 to 4), a legal
temporal index in which a day has fewer than 24 timepoints. -/
def m4 : List TimepointRec :=
  [⟨1, 1, 1, 1, 1⟩, ⟨2, 1, 1, 1, 2⟩, ⟨3, 1, 1, 1, 3⟩, ⟨4, 1, 1, 1, 4⟩]

/-- Values assigned by a candidate solution to the transmission
deliverability variables, indexed by resource and period. -/
structure DelivSolution where
  Fully_Deliverable_Installed_Capacity_MW : Int → Int → ℚ
  Energy_Only_Installed_Capacity_MW : Int → Int → ℚ
  Operational_New_Capacity_MW : Int → Int → ℚ

/-- Embedding of find_prev_period: the largest period strictly below the
given one, or none when the given period is the smallest. -/
def find_prev_period (PERIODS : List Int) (period : Int) : Option Int :=
  (PERIODS.filter (fun q => decide (q < period))).max?

/-- Embedding of first_period_init: min(model.PERIODS). -/
def first_period (PERIODS : List Int) : Option Int := PERIODS.min?

/-- Embedding of deliverability_def_rule: the equality constraint
emitted for every (resource, period) in TX_DELIVERABILITY_RESOURCES x
PERIODS. -/
def deliverability_def_rule (sol : DelivSolution) (resource period : Int) : Prop :=
  sol.Fully_Deliverable_Installed_Capacity_MW resource period
    + sol.Energy_Only_Installed_Capacity_MW resource period
    = sol.Operational_New_Capacity_MW resource period

/-- Embedding of fully_deliverable_period_build_rule: Constraint.Skip
(none) in the first period, otherwise the non-decrease inequality
against find_prev_period. -/
def fully_deliverable_period_build_rule (PERIODS : List Int)
    (sol : DelivSolution) (resource current_period : Int) : Option Prop :=
  if first_period PERIODS = some current_period then none
  else (find_prev_period PERIODS current_period).map (fun prev =>
    sol.Fully_Deliverable_Installed_Capacity_MW resource prev ≤
      sol.Fully_Deliverable_Installed_Capacity_MW resource current_period)

/-- Embedding of energy_only_period_build_rule: identical to the
fully-deliverable rule but on Energy_Only_Installed_Capacity_MW. -/
def energy_only_period_build_rule (PERIODS : List Int)
    (sol : DelivSolution) (resource current_period : Int) : Option Prop :=
  if first_period PERIODS = some current_period then none
  else (find_prev_period PERIODS current_period).map (fun prev =>
    sol.Energy_Only_Installed_Capacity_MW resource prev ≤
      sol.Energy_Only_Installed_Capacity_MW resource current_period)

/-- Feasibility of a candidate deliverability solution for one resource:
every emitted deliverability constraint holds. -/
def deliverability_constraints (PERIODS : List Int) (sol : DelivSolution)
    (resource : Int) : Prop :=
  (∀ p ∈ PERIODS, deliverability_def_rule sol resource p) ∧
  (∀ p ∈ PERIODS, ∀ P : Prop,
    fully_deliverable_period_build_rule PERIODS sol resource p = some P → P) ∧
  (∀ p ∈ PERIODS, ∀ P : Prop,
    energy_only_period_build_rule PERIODS sol resource p = some P → P)

/-- Concrete deliverability solution assigning zero everywhere. -/
def zeroDelivSol : DelivSolution :=
  ⟨fun _ _ => 0, fun _ _ => 0, fun _ _ => 0⟩

/-- Concrete two-period horizon. -/
def periodsAB : List Int := [1, 2]

/-- Model data consulted by the planning-reserve-margin membership
validation: the PRM resource set, its representation subsets, and the
per-resource bin and import flags. -/
structure PRMModel where
  PRM_RESOURCES : List Int
  PRM_NQC_RESOURCES : List Int
  PRM_VARIABLE_RENEWABLE_RESOURCES : List Int
  TX_DELIVERABILITY_RESOURCES : List Int
  EE_PROGRAMS : List Int
  elcc_solar_bin : Int → Bool
  elcc_wind_bin : Int → Bool
  import_on_existing_tx : Int → Bool
  import_on_new_tx : Int → Bool

/-- Embedding of planning_reserve_margin_resource_membership_init: the
number of PRM representations a resource is counted under. -/
def planning_reserve_margin_resource_membership_init (mdl : PRMModel)
    (resource : Int) : Int :=
  (if resource ∈ mdl.PRM_NQC_RESOURCES then 1 else 0)
  + (if resource ∈ mdl.PRM_VARIABLE_RENEWABLE_RESOURCES then
      (if mdl.elcc_solar_bin resource then 1 else 0)
      + (if mdl.elcc_wind_bin resource then 1 else 0)
    else 0)
  + (if resource ∈ mdl.TX_DELIVERABILITY_RESOURCES then
      (if mdl.import_on_existing_tx resource then 1 else 0)
      + (if mdl.import_on_new_tx resource then 1 else 0)
    else 0)
  + (if resource ∈ mdl.EE_PROGRAMS then 1 else 0)

/-- Embedding of planning_reserve_margin_resource_membership_validate:
memberships == 1. -/
def planning_reserve_margin_resource_membership_validate
    (memberships : Int) : Bool :=
  memberships == 1

/-- Construction of the prm_memberships Param over a list of PRM
resources: Pyomo initializes the value for each resource and raises as
soon as the validator rejects one. -/
def prm_param_construct (mdl : PRMModel) :
    List Int → Except String (List (Int × Int))
  | [] => .ok []
  | r :: rest =>
    let v := planning_reserve_margin_resource_membership_init mdl r
    if planning_reserve_margin_resource_membership_validate v then do
      let tail ← prm_param_construct mdl rest
      .ok ((r, v) :: tail)
    else .error "prm_memberships validation failed"

/-- Construction of prm_memberships over the full PRM_RESOURCES set. -/
def prm_memberships_build (mdl : PRMModel) : Except String (List (Int × Int)) :=
  prm_param_construct mdl mdl.PRM_RESOURCES

/-- Model data consulted by the CAN_RETIRE_RESOURCES validation: the
base resource set, the derived sets named by the validation rule, and
the per-resource can_retire flag. -/
structure RetireModel where
  RESOURCES : List Int
  THERMAL_RESOURCES : List Int
  STORAGE_RESOURCES : List Int
  TX_DELIVERABILITY_RESOURCES : List Int
  can_retire : Int → Bool

/-- Embedding of can_retire_resources_validation_rule: membership in
THERMAL_RESOURCES - STORAGE_RESOURCES - TX_DELIVERABILITY_RESOURCES. -/
def can_retire_resources_validation_rule (mdl : RetireModel)
    (resource : Int) : Bool :=
  decide (resource ∈ mdl.THERMAL_RESOURCES)
    && !decide (resource ∈ mdl.STORAGE_RESOURCES)
    && !decide (resource ∈ mdl.TX_DELIVERABILITY_RESOURCES)

/-- Construction of the CAN_RETIRE_RESOURCES Set: RESOURCES filtered on
the can_retire flag, with every member validated; Pyomo raises when any
member fails validation. -/
def CAN_RETIRE_RESOURCES_build (mdl : RetireModel) : Except String (List Int) :=
  let members := mdl.RESOURCES.filter (fun r => mdl.can_retire r)
  if members.all (fun r => can_retire_resources_validation_rule mdl r) then
    .ok members
  else .error "CAN_RETIRE_RESOURCES validation failed"

/-- One cell of the flexible-override index in load_data.py: pandas
renders wildcard and inapplicable dimensions as the literal strings All
and None, and any other entry is an integer literal. -/
inductive FlexIdx where
  | none
  | all
  | val (n : Int)
deriving DecidableEq, Repr

/-- One row of the flexible_params table, keyed by
(param, model_object, period, day, hour_of_day_from, hour_of_day_to). -/
structure FlexRow where
  param : String
  model_object : String
  period : FlexIdx
  day : FlexIdx
  hour_of_day_from : FlexIdx
  hour_of_day_to : FlexIdx
deriving DecidableEq, Repr

/-- Embedding of the Python int() conversion applied to an index cell:
the sentinels All and None raise ValueError. -/
def flexInt : FlexIdx → Except String Int
  | .val n => .ok n
  | .all => .error "invalid literal for int with base 10: All"
  | .none => .error "invalid literal for int with base 10: None"

/-- Unique hour_of_day values of the timepoint records, as collected
into sets by create_timepoint_mapping. -/
def timepoint_mapping_hours (tm : List TimepointRec) : List Int :=
  (tm.map (fun r => r.hour_of_day)).dedup

/-- Unique period values of the timepoint records. -/
def timepoint_mapping_periods (tm : List TimepointRec) : List Int :=
  (tm.map (fun r => r.period)).dedup

/-- Unique day values of the timepoint records. -/
def timepoint_mapping_days (tm : List TimepointRec) : List Int :=
  (tm.map (fun r => r.day)).dedup

/-- Embedding of Python range(hour_of_day_from, hour_of_day_to + 1). -/
def hour_range (hfrom hto : Int) : List Int :=
  (List.range (hto + 1 - hfrom).toNat).map (fun i => hfrom + (i : Int))

/-- Hour loop of parse_timepoint_param: for each hour the matching
timepoint is looked up in the timepoint mapping; more than one match
raises ValueError, no match raises IndexError on the empty lookup. -/
def parse_timepoint_hours (tm : List TimepointRec) (period day : Int) :
    List Int → Except String Unit
  | [] => .ok ()
  | hour :: rest =>
    let timepoint_to_use :=
      (tm.filter (fun r =>
        r.period == period && r.day == day && r.hour_of_day == hour)).map
        (fun r => r.tp)
    if timepoint_to_use.length > 1 then
      .error "Timepoints are not unique for every period, day, and hour_of_day combination."
    else if timepoint_to_use.length = 0 then
      .error "IndexError: index 0 is out of bounds"
    else parse_timepoint_hours tm period day rest

/-- Embedding of parse_timepoint_param for one
(period, day, hour range) triple. -/
def parse_timepoint_param (tm : List TimepointRec)
    (period day hfrom hto : Int) : Except String Unit :=
  parse_timepoint_hours tm period day (hour_range hfrom hto)

/-- Day wildcard expansion: parse_timepoint_param applied to every day
in the timepoint mapping. -/
def parse_timepoint_all_days (tm : List TimepointRec) (period hfrom hto : Int) :
    List Int → Except String Unit
  | [] => .ok ()
  | d :: rest => do
    parse_timepoint_param tm period d hfrom hto
    parse_timepoint_all_days tm period hfrom hto rest

/-- Period wildcard expansion: the day expansion applied to every
period in the timepoint mapping. -/
def parse_timepoint_all_periods (tm : List TimepointRec) (hfrom hto : Int)
    (days : List Int) : List Int → Except String Unit
  | [] => .ok ()
  | p :: rest => do
    parse_timepoint_all_days tm p hfrom hto days
    parse_timepoint_all_periods tm hfrom hto days rest

/-- Shape of a row bound as a plain object parameter: period, day and
both hour bounds are the None sentinel. -/
def rowAllNone (row : FlexRow) : Prop :=
  row.period = FlexIdx.none ∧ row.day = FlexIdx.none ∧
    row.hour_of_day_from = FlexIdx.none ∧ row.hour_of_day_to = FlexIdx.none

/-- Shape of a row bound as an object-and-period parameter: the period
entry is set while day and both hour bounds are the None sentinel. -/
def rowPeriodOnly (row : FlexRow) : Prop :=
  row.period ≠ FlexIdx.none ∧ row.day = FlexIdx.none ∧
    row.hour_of_day_from = FlexIdx.none ∧ row.hour_of_day_to = FlexIdx.none

instance (row : FlexRow) : Decidable (rowAllNone row) := by
  unfold rowAllNone; infer_instance

instance (row : FlexRow) : Decidable (rowPeriodOnly row) := by
  unfold rowPeriodOnly; infer_instance

/-- Processing of one flexible_params row, following the branch
structure of parse_flexible_params: object-only and period bindings are
plain dictionary writes; the timepoint branch converts the hour bounds
with int(), rejects hour bounds outside the HOURS set, and expands the
day and period wildcards over the timepoint mapping. -/
def processRow (tm : List TimepointRec) (row : FlexRow) : Except String Unit :=
  if rowAllNone row then
    .ok ()
  else if rowPeriodOnly row then
    if row.period = FlexIdx.all then .ok ()
    else do
      let _ ← flexInt row.period
      .ok ()
  else do
    let hour_of_day_from ← flexInt row.hour_of_day_from
    let hour_of_day_to ← flexInt row.hour_of_day_to
    if hour_of_day_from ∉ timepoint_mapping_hours tm ∨
        hour_of_day_to ∉ timepoint_mapping_hours tm then
      .error "Hour range set for this index is invalid."
    else if row.day = FlexIdx.all ∧ row.period = FlexIdx.all then
      parse_timepoint_all_periods tm hour_of_day_from hour_of_day_to
        (timepoint_mapping_days tm) (timepoint_mapping_periods tm)
    else if row.day = FlexIdx.all ∧ row.period ≠ FlexIdx.all then do
      let p ← flexInt row.period
      parse_timepoint_all_days tm p hour_of_day_from hour_of_day_to
        (timepoint_mapping_days tm)
    else if row.day ≠ FlexIdx.all ∧ row.period = FlexIdx.all then do
      let d ← flexInt row.day
      parse_timepoint_all_periods tm hour_of_day_from hour_of_day_to
        [d] (timepoint_mapping_periods tm)
    else do
      let p ← flexInt row.period
      let d ← flexInt row.day
      parse_timepoint_param tm p d hour_of_day_from hour_of_day_to

/-- Duplicate-definition check of parse_flexible_params: each parameter
named in the flexible table is rejected when it is already present in
the DataPortal data loaded through data.load(). -/
def checkDuplicates (loaded : List String) : List String → Except String Unit
  | [] => .ok ()
  | p :: rest =>
    if p ∈ loaded then
      .error ("Data for parameter " ++ p ++ " is already loaded via data.load")
    else checkDuplicates loaded rest

/-- Row loop of parse_flexible_params. -/
def processRows (tm : List TimepointRec) : List FlexRow → Except String Unit
  | [] => .ok ()
  | row :: rest => do
    processRow tm row
    processRows tm rest

/-- Embedding of parse_flexible_params: the duplicate-definition check
over the unique parameter names of the table runs first, then every row
is processed in order. -/
def parse_flexible_params (loaded : List String) (tm : List TimepointRec)
    (rows : List FlexRow) : Except String Unit := do
  checkDuplicates loaded ((rows.map (fun r => r.param)).dedup)
  processRows tm rows

/-- True exactly on the error outcome of a parse. -/
def isErr {α : Type} : Except String α → Bool
  | .error _ => true
  | .ok _ => false

/-- Concrete flexible row naming an already-loaded parameter. -/
def rowDupW : FlexRow :=
  ⟨"fuel_price", "CCGT", FlexIdx.all, FlexIdx.none, FlexIdx.none, FlexIdx.none⟩

/-- Concrete flexible row whose hour range lies outside the hours of the
four-hour day m4. -/
def rowHourW : FlexRow :=
  ⟨"maintenance_derate", "CCGT", FlexIdx.all, FlexIdx.all, FlexIdx.val 9, FlexIdx.val 9⟩

instance : Std.Antisymm (fun (x y : Int) => x ≤ y) := ⟨fun h h' => le_antisymm h h'⟩

theorem int_min?_eq_some_iff {a : Int} {xs : List Int} :
    xs.min? = some a ↔ a ∈ xs ∧ ∀ b ∈ xs, a ≤ b :=
  List.min?_eq_some_iff (fun _ => le_refl _) (fun _ _ => min_choice _ _)
    (fun _ _ _ => le_min_iff)

theorem int_max?_eq_some_iff {a : Int} {xs : List Int} :
    xs.max? = some a ↔ a ∈ xs ∧ ∀ b ∈ xs, b ≤ a :=
  List.max?_eq_some_iff (fun _ => le_refl _) (fun _ _ => max_choice _ _)
    (fun _ _ _ => max_le_iff)

theorem mem_timepoints_on_day {m : List TimepointRec} {r : TimepointRec}
    (hr : r ∈ m) : r.tp ∈ timepoints_on_day m r.period r.day := by
  unfold timepoints_on_day
  exact List.mem_map.mpr ⟨r, List.mem_filter.mpr ⟨hr, by simp⟩, rfl⟩

theorem first_timepoint_isSome {m : List TimepointRec} {r : TimepointRec}
    (hr : r ∈ m) : ∃ f, first_timepoint_of_day m r.period r.day = some f := by
  unfold first_timepoint_of_day
  cases hl : timepoints_on_day m r.period r.day with
  | nil => exact absurd (hl ▸ mem_timepoints_on_day hr) (List.not_mem_nil _)
  | cons x l => exact ⟨_, rfl⟩

theorem last_timepoint_isSome {m : List TimepointRec} {r : TimepointRec}
    (hr : r ∈ m) : ∃ l, last_timepoint_of_day m r.period r.day = some l := by
  unfold last_timepoint_of_day
  cases hl : timepoints_on_day m r.period r.day with
  | nil => exact absurd (hl ▸ mem_timepoints_on_day hr) (List.not_mem_nil _)
  | cons x l => exact ⟨_, rfl⟩

/-- Claim C1: for every timepoint of the built temporal index, if it is
the first timepoint of its (period, day) then its previous timepoint is
the last timepoint of that same (period, day); if it is the last
timepoint of its (period, day) then its next timepoint is the first
timepoint of that same (period, day); otherwise the previous timepoint is
t - 1 and the next timepoint is t + 1. -/
theorem C1_circular_timepoint_invariant (m : List TimepointRec)
    (r : TimepointRec) (hr : r ∈ m) :
    (first_timepoint_of_day m r.period r.day = some r.tp →
      previous_timepoint m r = last_timepoint_of_day m r.period r.day) ∧
    (last_timepoint_of_day m r.period r.day = some r.tp →
      next_timepoint m r = first_timepoint_of_day m r.period r.day) ∧
    (first_timepoint_of_day m r.period r.day ≠ some r.tp →
      previous_timepoint m r = some (r.tp - 1)) ∧
    (last_timepoint_of_day m r.period r.day ≠ some r.tp →
      next_timepoint m r = some (r.tp + 1)) := by
  obtain ⟨f, hf⟩ := first_timepoint_isSome hr
  obtain ⟨l, hl⟩ := last_timepoint_isSome hr
  refine ⟨?_, ?_, ?_, ?_⟩
  · intro h
    rw [hf] at h
    simp only [previous_timepoint, hf, hl, Option.bind_eq_bind, Option.some_bind]
    rw [if_pos (Option.some_injective _ h).symm]
    rfl
  · intro h
    rw [hl] at h
    simp only [next_timepoint, hf, hl, Option.bind_eq_bind, Option.some_bind]
    rw [if_pos (Option.some_injective _ h).symm]
    rfl
  · intro h
    rw [hf] at h
    simp only [previous_timepoint, hf, hl, Option.bind_eq_bind, Option.some_bind]
    rw [if_neg (fun heq => h (congrArg some heq.symm))]
    rfl
  · intro h
    rw [hl] at h
    simp only [next_timepoint, hf, hl, Option.bind_eq_bind, Option.some_bind]
    rw [if_neg (fun heq => h (congrArg some heq.symm))]
    rfl

/-- Claim C1 witness: the invariant evaluated on the concrete three-hour
day m1, at its first, middle and last timepoints. -/
theorem C1_circular_timepoint_invariant_witness :
    previous_timepoint m1 ⟨1, 1, 1, 1, 1⟩ = last_timepoint_of_day m1 1 1 ∧
    next_timepoint m1 ⟨3, 1, 1, 1, 3⟩ = first_timepoint_of_day m1 1 1 ∧
    previous_timepoint m1 ⟨2, 1, 1, 1, 2⟩ = some 1 ∧
    next_timepoint m1 ⟨2, 1, 1, 1, 2⟩ = some 3 :=
  ⟨(C1_circular_timepoint_invariant m1 ⟨1, 1, 1, 1, 1⟩ (by decide)).1 (by decide),
   (C1_circular_timepoint_invariant m1 ⟨3, 1, 1, 1, 3⟩ (by decide)).2.1 (by decide),
   (C1_circular_timepoint_invariant m1 ⟨2, 1, 1, 1, 2⟩ (by decide)).2.2.1 (by decide),
   (C1_circular_timepoint_invariant m1 ⟨2, 1, 1, 1, 2⟩ (by decide)).2.2.2 (by decide)⟩

/-- Claim C2: for every dispatchable resource and timepoint, the
commitment-tracking constraint emitted for (resource, t), where tPrev is
the circular previous timepoint of t, holds exactly when Commit_Units[t]
- Commit_Units[tPrev] = Start_Units[t] - Shut_Down_Units[t], so every
feasible solution conserves committed units across the circular
previous-timepoint step. -/
theorem C2_commitment_conservation (m : List TimepointRec) (sol : UCSolution)
    (resource : Int) (r : TimepointRec) (tPrev : Int)
    (hprev : previous_timepoint m r = some tPrev) :
    dispatchable_resource_commitment_tracking_rule sol resource r.tp tPrev ↔
      commit_units_conservation sol resource r.tp tPrev := by
  unfold dispatchable_resource_commitment_tracking_rule commit_units_conservation
  constructor <;> intro h <;> linarith

/-- Claim C2 witness: the equivalence evaluated on the concrete day m1 at
its first timepoint, whose circular previous timepoint is 3. -/
theorem C2_commitment_conservation_witness :
    dispatchable_resource_commitment_tracking_rule zeroUCSol 1 1 3 ↔
      commit_units_conservation zeroUCSol 1 1 3 :=
  C2_commitment_conservation m1 zeroUCSol 1 ⟨1, 1, 1, 1, 1⟩ 3 (by decide)

theorem storage_charging_mwh_eq (mdl : StorageModel) (sol : StorageSolution)
    (s t : Int) :
    storage_charging_mwh mdl sol s t =
      sol.Charge_Storage_MW s t
      + (if s ∈ mdl.REGULATION_RESERVE_RESOURCES then
          mdl.reg_dispatch_fraction * sol.Provide_Downward_Reg_MW s t else 0)
      + (if s ∈ mdl.LOAD_FOLLOWING_RESERVE_RESOURCES then
          mdl.lf_reserve_dispatch_fraction * sol.Provide_LF_Downward_Reserve_MW s t else 0) := by
  simp only [storage_charging_mwh]
  split_ifs <;> ring

theorem storage_discharging_mwh_eq (mdl : StorageModel) (sol : StorageSolution)
    (s t : Int) :
    storage_discharging_mwh mdl sol s t =
      sol.Provide_Power_MW s t
      + (if s ∈ mdl.REGULATION_RESERVE_RESOURCES then
          mdl.reg_dispatch_fraction * sol.Provide_Upward_Reg_MW s t else 0)
      + (if s ∈ mdl.LOAD_FOLLOWING_RESERVE_RESOURCES then
          mdl.lf_reserve_dispatch_fraction * sol.Provide_LF_Upward_Reserve_MW s t else 0) := by
  simp only [storage_discharging_mwh]
  split_ifs <;> ring

/-- Claim C4: the storage energy-tracking constraint emitted for
(storage resource s, timepoint t), with tNext the circular next
timepoint of t, is exactly Energy_in_Storage[s, tNext] ==
Energy_in_Storage[s, t] + charging * charging_efficiency - discharging /
discharging_efficiency, where charging is Charge_Storage_MW plus the
conditional regulation-down and load-following-down mileage terms and
discharging is Provide_Power_MW plus the symmetric upward terms. -/
theorem C4_storage_energy_tracking (m : List TimepointRec)
    (mdl : StorageModel) (sol : StorageSolution) (s : Int)
    (r : TimepointRec) (tNext : Int)
    (hnext : next_timepoint m r = some tNext) :
    storage_energy_tracking_rule mdl sol s r.tp tNext ↔
      storage_energy_tracking_spec mdl sol s r.tp tNext := by
  unfold storage_energy_tracking_rule storage_energy_tracking_spec
  rw [storage_charging_mwh_eq, storage_discharging_mwh_eq]

/-- Claim C4 witness: the equivalence evaluated on the concrete day m1 at
its last timepoint (whose circular next timepoint is 1), with a storage
model in which resource 1 carries both reserve types. -/
theorem C4_storage_energy_tracking_witness :
    storage_energy_tracking_rule stModelA zeroStorageSol 1 3 1 ↔
      storage_energy_tracking_spec stModelA zeroStorageSol 1 3 1 :=
  C4_storage_energy_tracking m1 stModelA zeroStorageSol 1 ⟨3, 1, 1, 1, 3⟩ 1 (by decide)

/-- Claim C5 counterexample: in the concrete model mdlC5, resource 1 is
dispatchable but not ramp limited (ramp_rate_fraction = 1), so the
Fully_Operational_Units expression is not generated for it at timepoint
1 of the day m1, refuting the claim quantified over every dispatchable
resource. -/
theorem C5_not_all_dispatchable :
    1 ∈ DISPATCHABLE_RESOURCES mdlC5 ∧
    (⟨1, 1, 1, 1, 1⟩ : TimepointRec) ∈ m1 ∧
    Fully_Operational_Units mdlC5 m1 zeroUCSol 1 ⟨1, 1, 1, 1, 1⟩ ≠
      some (zeroUCSol.Commit_Units 1 1 - zeroUCSol.Start_Units 1 1
        - zeroUCSol.Shut_Down_Units 1 2) := by
  refine ⟨by decide, by decide, ?_⟩
  intro h
  simp only [Fully_Operational_Units] at h
  rw [if_neg (by decide)] at h
  exact Option.noConfusion h

/-- Claim C5 (amended to the ramp-limited index set of the source): for
every dispatchable ramp-limited resource and every timepoint, the
Fully_Operational_Units expression equals Commit_Units[resource, t] -
Start_Units[resource, t] - Shut_Down_Units[resource, tNext] where tNext
is the circular next timepoint of t (the look-ahead off-by-one). -/
theorem C5_fully_operational_units (mdl : UCSetModel) (m : List TimepointRec)
    (sol : UCSolution) (resource : Int) (r : TimepointRec) (tNext : Int)
    (hmem : resource ∈ DISPATCHABLE_RAMP_LIMITED_RESOURCES mdl)
    (hnext : next_timepoint m r = some tNext) :
    Fully_Operational_Units mdl m sol resource r =
      some (sol.Commit_Units resource r.tp - sol.Start_Units resource r.tp
        - sol.Shut_Down_Units resource tNext) := by
  unfold Fully_Operational_Units
  rw [if_pos hmem, hnext]
  rfl

/-- Claim C5 witness: the amended equation evaluated in the ramp-limited
model mdlC5b at the last timepoint of m1, whose circular next timepoint
is 1. -/
theorem C5_fully_operational_units_witness :
    Fully_Operational_Units mdlC5b m1 zeroUCSol 1 ⟨3, 1, 1, 1, 3⟩ =
      some (zeroUCSol.Commit_Units 1 3 - zeroUCSol.Start_Units 1 3
        - zeroUCSol.Shut_Down_Units 1 1) :=
  C5_fully_operational_units mdlC5b m1 zeroUCSol 1 ⟨3, 1, 1, 1, 3⟩ 1
    (by decide) (by decide)

/-- Claim C6: for a dispatchable ramp-limited resource, when
ramp_rate_fraction is at least 1 - min_stable_level_fraction neither a
ramp-up nor a ramp-down constraint is emitted (both rules return
Constraint.Skip, modelled as none); otherwise both constraints are
emitted, each carrying the ramp_relax slack term. -/
theorem C6_ramp_structural_skip (mdl : UCSetModel) (sol : UCSolution)
    (resource t tPrev : Int) :
    (mdl.ramp_rate_fraction (mdl.technology resource) ≥
        1 - mdl.min_stable_level_fraction (mdl.technology resource) →
      dispatchable_resource_ramp_up_rule mdl sol resource t tPrev = none ∧
      dispatchable_resource_ramp_down_rule mdl sol resource t tPrev = none) ∧
    (mdl.ramp_rate_fraction (mdl.technology resource) <
        1 - mdl.min_stable_level_fraction (mdl.technology resource) →
      dispatchable_resource_ramp_up_rule mdl sol resource t tPrev =
        some (sol.Provide_Power_MW resource t - sol.Provide_Power_MW resource tPrev ≤
          (Commit_Capacity_MW mdl sol resource t - Start_Capacity_MW mdl sol resource t)
            * mdl.ramp_rate_fraction (mdl.technology resource)
          + Start_Capacity_MW mdl sol resource t
            * mdl.min_stable_level_fraction (mdl.technology resource)
          + sol.Start_Units resource t * mdl.ramp_relax) ∧
      dispatchable_resource_ramp_down_rule mdl sol resource t tPrev =
        some (-(sol.Provide_Power_MW resource t - sol.Provide_Power_MW resource tPrev) ≤
          (Commit_Capacity_MW mdl sol resource t - Start_Capacity_MW mdl sol resource t)
            * mdl.ramp_rate_fraction (mdl.technology resource)
          + sol.Shut_Down_Units resource t
            * mdl.unit_size_mw (mdl.technology resource)
            * mdl.min_stable_level_fraction (mdl.technology resource)
          + sol.Shut_Down_Units resource t * mdl.ramp_relax)) := by
  constructor
  · intro h
    exact ⟨by unfold dispatchable_resource_ramp_up_rule; rw [if_pos h],
           by unfold dispatchable_resource_ramp_down_rule; rw [if_pos h]⟩
  · intro h
    exact ⟨by unfold dispatchable_resource_ramp_up_rule; rw [if_neg (not_le.mpr h)],
           by unfold dispatchable_resource_ramp_down_rule; rw [if_neg (not_le.mpr h)]⟩

/-- Claim C6 witness: in mdlR1 (ramp_rate_fraction 3/4 at least 1/2)
both ramp rules are skipped; in mdlC5b (ramp_rate_fraction 1/4 below
1/2) both rules emit a constraint. -/
theorem C6_ramp_structural_skip_witness :
    (dispatchable_resource_ramp_up_rule mdlR1 zeroUCSol 1 2 1 = none ∧
     dispatchable_resource_ramp_down_rule mdlR1 zeroUCSol 1 2 1 = none) ∧
    (dispatchable_resource_ramp_up_rule mdlC5b zeroUCSol 1 2 1).isSome = true ∧
    (dispatchable_resource_ramp_down_rule mdlC5b zeroUCSol 1 2 1).isSome = true := by
  refine ⟨(C6_ramp_structural_skip mdlR1 zeroUCSol 1 2 1).1 (by norm_num [mdlR1]), ?_, ?_⟩
  · rw [((C6_ramp_structural_skip mdlC5b zeroUCSol 1 2 1).2 (by norm_num [mdlC5b])).1]
    rfl
  · rw [((C6_ramp_structural_skip mdlC5b zeroUCSol 1 2 1).2 (by norm_num [mdlC5b])).2]
    rfl

/-- Claim C3 evaluation: on the four-timepoint day m4 the wraparound
arithmetic of the PreStart_Units / Starting_Units index code, which
subtracts or adds the globally fixed timepoints_per_day = 24, produces
indices (-18 and 24) that are not timepoints of the day at all, instead
of wrapping within the day's own four timepoints. -/
theorem C3_wrap_escapes_day :
    prestart_to_start_timepoint m4 2 ⟨4, 1, 1, 1, 4⟩ = some (-18) ∧
    (-18 : Int) ∉ timepoints_on_day m4 1 1 ∧
    starting_units_lookback m4 2 ⟨1, 1, 1, 1, 1⟩ = some [24] ∧
    (24 : Int) ∉ timepoints_on_day m4 1 1 ∧
    preshut_down_to_shut_down_timepoint m4 2 ⟨4, 1, 1, 1, 4⟩ = some (-18) ∧
    shutting_down_units_lookback m4 2 ⟨1, 1, 1, 1, 1⟩ = some [24] := by
  decide

theorem find_prev_period_spec {PERIODS : List Int} {p q : Int}
    (h : find_prev_period PERIODS p = some q) :
    q ∈ PERIODS ∧ q < p ∧ ∀ x ∈ PERIODS, x < p → x ≤ q := by
  unfold find_prev_period at h
  obtain ⟨hmem, hmax⟩ := int_max?_eq_some_iff.mp h
  obtain ⟨hq, hlt⟩ := List.mem_filter.mp hmem
  exact ⟨hq, by simpa using hlt,
    fun x hx hxp => hmax x (List.mem_filter.mpr ⟨hx, by simpa using hxp⟩)⟩

theorem find_prev_period_isSome {PERIODS : List Int} {p : Int}
    (hp : p ∈ PERIODS) (hfirst : first_period PERIODS ≠ some p) :
    ∃ q, find_prev_period PERIODS p = some q := by
  obtain ⟨mn, hmn⟩ : ∃ mn, PERIODS.min? = some mn := by
    cases PERIODS with
    | nil => cases hp
    | cons x l => exact ⟨_, rfl⟩
  obtain ⟨hmnmem, hmnle⟩ := int_min?_eq_some_iff.mp hmn
  have hmnp : mn < p :=
    lt_of_le_of_ne (hmnle p hp)
      (fun h => hfirst (by rw [first_period, hmn, h]))
  have hmem : mn ∈ PERIODS.filter (fun q => decide (q < p)) :=
    List.mem_filter.mpr ⟨hmnmem, by simpa using hmnp⟩
  unfold find_prev_period
  cases hflt : PERIODS.filter (fun q => decide (q < p)) with
  | nil => rw [hflt] at hmem; cases hmem
  | cons x l => exact ⟨_, rfl⟩

theorem fd_build_rule_eq {PERIODS : List Int} {sol : DelivSolution}
    {resource p q : Int} (hfirst : first_period PERIODS ≠ some p)
    (hq : find_prev_period PERIODS p = some q) :
    fully_deliverable_period_build_rule PERIODS sol resource p =
      some (sol.Fully_Deliverable_Installed_Capacity_MW resource q ≤
        sol.Fully_Deliverable_Installed_Capacity_MW resource p) := by
  unfold fully_deliverable_period_build_rule
  rw [if_neg hfirst, hq]
  rfl

theorem eo_build_rule_eq {PERIODS : List Int} {sol : DelivSolution}
    {resource p q : Int} (hfirst : first_period PERIODS ≠ some p)
    (hq : find_prev_period PERIODS p = some q) :
    energy_only_period_build_rule PERIODS sol resource p =
      some (sol.Energy_Only_Installed_Capacity_MW resource q ≤
        sol.Energy_Only_Installed_Capacity_MW resource p) := by
  unfold energy_only_period_build_rule
  rw [if_neg hfirst, hq]
  rfl

/-- Claim C7: for every TX deliverability resource, in every feasible
solution every period satisfies Fully_Deliverable + Energy_Only ==
Operational_New_Capacity, every non-first period keeps both components
at least their previous-period values, and consequently both components
are monotonically non-decreasing across periods. -/
theorem C7_deliverability_split (PERIODS : List Int) (sol : DelivSolution)
    (resource : Int)
    (hfeas : deliverability_constraints PERIODS sol resource) :
    (∀ p ∈ PERIODS,
      sol.Fully_Deliverable_Installed_Capacity_MW resource p
        + sol.Energy_Only_Installed_Capacity_MW resource p
        = sol.Operational_New_Capacity_MW resource p) ∧
    (∀ p ∈ PERIODS, first_period PERIODS ≠ some p →
      ∃ q, find_prev_period PERIODS p = some q ∧
        sol.Fully_Deliverable_Installed_Capacity_MW resource q ≤
          sol.Fully_Deliverable_Installed_Capacity_MW resource p ∧
        sol.Energy_Only_Installed_Capacity_MW resource q ≤
          sol.Energy_Only_Installed_Capacity_MW resource p) ∧
    (∀ p ∈ PERIODS, ∀ q ∈ PERIODS, q ≤ p →
      sol.Fully_Deliverable_Installed_Capacity_MW resource q ≤
        sol.Fully_Deliverable_Installed_Capacity_MW resource p ∧
      sol.Energy_Only_Installed_Capacity_MW resource q ≤
        sol.Energy_Only_Installed_Capacity_MW resource p) := by
  obtain ⟨hdef, hfd, heo⟩ := hfeas
  have step : ∀ p ∈ PERIODS, first_period PERIODS ≠ some p →
      ∃ q, find_prev_period PERIODS p = some q ∧
        sol.Fully_Deliverable_Installed_Capacity_MW resource q ≤
          sol.Fully_Deliverable_Installed_Capacity_MW resource p ∧
        sol.Energy_Only_Installed_Capacity_MW resource q ≤
          sol.Energy_Only_Installed_Capacity_MW resource p := by
    intro p hp hfirst
    obtain ⟨q, hq⟩ := find_prev_period_isSome hp hfirst
    exact ⟨q, hq, hfd p hp _ (fd_build_rule_eq hfirst hq),
      heo p hp _ (eo_build_rule_eq hfirst hq)⟩
  refine ⟨hdef, step, ?_⟩
  have chain : ∀ n : ℕ, ∀ p ∈ PERIODS,
      (PERIODS.filter (fun x => decide (x < p))).length ≤ n →
      ∀ q ∈ PERIODS, q ≤ p →
        sol.Fully_Deliverable_Installed_Capacity_MW resource q ≤
          sol.Fully_Deliverable_Installed_Capacity_MW resource p ∧
        sol.Energy_Only_Installed_Capacity_MW resource q ≤
          sol.Energy_Only_Installed_Capacity_MW resource p := by
    intro n
    induction n with
    | zero =>
      intro p hp hlen q hq hqp
      rcases eq_or_lt_of_le hqp with heq | hlt
      · subst heq; exact ⟨le_refl _, le_refl _⟩
      · exfalso
        have hmem : q ∈ PERIODS.filter (fun x => decide (x < p)) :=
          List.mem_filter.mpr ⟨hq, by simpa using hlt⟩
        have h0 : PERIODS.filter (fun x => decide (x < p)) = [] :=
          List.length_eq_zero.mp (Nat.le_zero.mp hlen)
        rw [h0] at hmem
        cases hmem
    | succ n ih =>
      intro p hp hlen q hq hqp
      rcases eq_or_lt_of_le hqp with heq | hlt
      · subst heq; exact ⟨le_refl _, le_refl _⟩
      · have hfirst : first_period PERIODS ≠ some p := by
          intro hfp
          rw [first_period] at hfp
          obtain ⟨hmem, hmin⟩ := int_min?_eq_some_iff.mp hfp
          exact absurd (hmin q hq) (not_le.mpr hlt)
        obtain ⟨pv, hpv, hfdle, heole⟩ := step p hp hfirst
        obtain ⟨hpvmem, hpvlt, hpvmax⟩ := find_prev_period_spec hpv
        have hqpv : q ≤ pv := hpvmax q hq hlt
        have hsub : List.Sublist (PERIODS.filter (fun x => decide (x < pv)))
            (PERIODS.filter (fun x => decide (x < p))) :=
          List.monotone_filter_right _ (fun a ha => by
            simp only [decide_eq_true_eq] at ha ⊢
            omega)
        have hpvin : pv ∈ PERIODS.filter (fun x => decide (x < p)) :=
          List.mem_filter.mpr ⟨hpvmem, by simpa using hpvlt⟩
        have hpvnotin : pv ∉ PERIODS.filter (fun x => decide (x < pv)) := by
          intro hco
          have := (List.mem_filter.mp hco).2
          simp at this
        have hlt2 : (PERIODS.filter (fun x => decide (x < pv))).length <
            (PERIODS.filter (fun x => decide (x < p))).length := by
          rcases lt_or_eq_of_le hsub.length_le with h | h
          · exact h
          · exact absurd (hsub.eq_of_length h ▸ hpvin) hpvnotin
        have hlen2 : (PERIODS.filter (fun x => decide (x < pv))).length ≤ n := by
          omega
        obtain ⟨h1, h2⟩ := ih pv hpvmem hlen2 q hq hqpv
        exact ⟨le_trans h1 hfdle, le_trans h2 heole⟩
  exact fun p hp q hq hqp =>
    chain (PERIODS.filter (fun x => decide (x < p))).length p hp (le_refl _) q hq hqp

/-- Claim C7 witness: the conclusions evaluated for the all-zero
solution on the two-period horizon periodsAB. -/
theorem C7_deliverability_split_witness :
    (∀ p ∈ periodsAB,
      zeroDelivSol.Fully_Deliverable_Installed_Capacity_MW 7 p
        + zeroDelivSol.Energy_Only_Installed_Capacity_MW 7 p
        = zeroDelivSol.Operational_New_Capacity_MW 7 p) ∧
    (∀ p ∈ periodsAB, first_period periodsAB ≠ some p →
      ∃ q, find_prev_period periodsAB p = some q ∧
        zeroDelivSol.Fully_Deliverable_Installed_Capacity_MW 7 q ≤
          zeroDelivSol.Fully_Deliverable_Installed_Capacity_MW 7 p ∧
        zeroDelivSol.Energy_Only_Installed_Capacity_MW 7 q ≤
          zeroDelivSol.Energy_Only_Installed_Capacity_MW 7 p) ∧
    (∀ p ∈ periodsAB, ∀ q ∈ periodsAB, q ≤ p →
      zeroDelivSol.Fully_Deliverable_Installed_Capacity_MW 7 q ≤
        zeroDelivSol.Fully_Deliverable_Installed_Capacity_MW 7 p ∧
      zeroDelivSol.Energy_Only_Installed_Capacity_MW 7 q ≤
        zeroDelivSol.Energy_Only_Installed_Capacity_MW 7 p) := by
  refine C7_deliverability_split periodsAB zeroDelivSol 7 ⟨?_, ?_, ?_⟩
  · intro p hp
    simp [deliverability_def_rule, zeroDelivSol]
  · intro p hp P hP
    simp only [periodsAB, List.mem_cons, List.not_mem_nil, or_false,
      List.mem_singleton] at hp
    rcases hp with rfl | rfl
    · exact Option.noConfusion hP
    · have h2 : P = (zeroDelivSol.Fully_Deliverable_Installed_Capacity_MW 7 1 ≤
          zeroDelivSol.Fully_Deliverable_Installed_Capacity_MW 7 2) :=
        (Option.some.inj hP).symm
      rw [h2]
      exact le_refl _
  · intro p hp P hP
    simp only [periodsAB, List.mem_cons, List.not_mem_nil, or_false,
      List.mem_singleton] at hp
    rcases hp with rfl | rfl
    · exact Option.noConfusion hP
    · have h2 : P = (zeroDelivSol.Energy_Only_Installed_Capacity_MW 7 1 ≤
          zeroDelivSol.Energy_Only_Installed_Capacity_MW 7 2) :=
        (Option.some.inj hP).symm
      rw [h2]
      exact le_refl _

theorem prm_param_construct_ok_iff (mdl : PRMModel) (L : List Int) :
    (∃ l, prm_param_construct mdl L = Except.ok l) ↔
      ∀ r ∈ L, planning_reserve_margin_resource_membership_init mdl r = 1 := by
  induction L with
  | nil => simp [prm_param_construct]
  | cons r rest ih =>
    constructor
    · rintro ⟨l, hl⟩ x hx
      unfold prm_param_construct at hl
      by_cases hv : planning_reserve_margin_resource_membership_validate
          (planning_reserve_margin_resource_membership_init mdl r) = true
      · have hr1 : planning_reserve_margin_resource_membership_init mdl r = 1 := by
          simpa [planning_reserve_margin_resource_membership_validate] using hv
        rw [if_pos hv] at hl
        rcases List.mem_cons.mp hx with rfl | hx2
        · exact hr1
        · cases htail : prm_param_construct mdl rest with
          | error e => rw [htail] at hl; cases hl
          | ok tail => exact (ih.mp ⟨tail, htail⟩) x hx2
      · rw [if_neg hv] at hl; cases hl
    · intro h
      have hr1 := h r (List.mem_cons_self r rest)
      have hv : planning_reserve_margin_resource_membership_validate
          (planning_reserve_margin_resource_membership_init mdl r) = true := by
        simp [planning_reserve_margin_resource_membership_validate, hr1]
      obtain ⟨tail, htail⟩ := ih.mpr (fun x hx => h x (List.mem_cons_of_mem r hx))
      refine ⟨(r, planning_reserve_margin_resource_membership_init mdl r) :: tail, ?_⟩
      unfold prm_param_construct
      rw [if_pos hv, htail]
      rfl

/-- Claim C8: construction of the prm_memberships Param succeeds exactly
when every resource of PRM_RESOURCES is counted under exactly one PRM
representation (NQC, solar or wind ELCC bin of a PRM variable
renewable, an import flag of a TX deliverability resource, or EE
program); any PRM
resource with membership count 0 or above 1 makes construction fail
before solve. -/
theorem C8_prm_membership_exactly_one (mdl : PRMModel) :
    (∃ l, prm_memberships_build mdl = Except.ok l) ↔
      ∀ r ∈ mdl.PRM_RESOURCES,
        planning_reserve_margin_resource_membership_init mdl r = 1 :=
  prm_param_construct_ok_iff mdl mdl.PRM_RESOURCES

/-- Claim C10: construction of CAN_RETIRE_RESOURCES succeeds exactly
when every resource carrying the can_retire flag lies in
THERMAL_RESOURCES minus STORAGE_RESOURCES minus
TX_DELIVERABILITY_RESOURCES; data binding fails for any non-thermal
resource flagged can_retire, including those that are neither storage
nor TX deliverability resources. -/
theorem C10_can_retire_only_thermal (mdl : RetireModel) :
    (∃ l, CAN_RETIRE_RESOURCES_build mdl = Except.ok l) ↔
      ∀ r ∈ mdl.RESOURCES, mdl.can_retire r = true →
        r ∈ mdl.THERMAL_RESOURCES ∧ r ∉ mdl.STORAGE_RESOURCES ∧
          r ∉ mdl.TX_DELIVERABILITY_RESOURCES := by
  unfold CAN_RETIRE_RESOURCES_build
  constructor
  · rintro ⟨l, hl⟩ r hr hcr
    by_cases hb : (mdl.RESOURCES.filter (fun r => mdl.can_retire r)).all
        (fun r => can_retire_resources_validation_rule mdl r) = true
    · have hv := List.all_eq_true.mp hb r
        (List.mem_filter.mpr ⟨hr, hcr⟩)
      simpa [can_retire_resources_validation_rule, and_assoc] using hv
    · rw [if_neg hb] at hl; cases hl
  · intro h
    refine ⟨_, if_pos (List.all_eq_true.mpr ?_)⟩
    intro r hrf
    obtain ⟨hr, hcr⟩ := List.mem_filter.mp hrf
    have := h r hr hcr
    simp [can_retire_resources_validation_rule, and_assoc, this.1, this.2.1, this.2.2]

theorem except_ok_bind {α β : Type} (a : α) (f : α → Except String β) :
    (Except.ok a >>= f) = f a := rfl

theorem checkDuplicates_err {loaded : List String} {ps : List String}
    {p : String} (hp : p ∈ ps) (hl : p ∈ loaded) :
    isErr (checkDuplicates loaded ps) = true := by
  induction ps with
  | nil => cases hp
  | cons q rest ih =>
    unfold checkDuplicates
    by_cases hq : q ∈ loaded
    · rw [if_pos hq]; rfl
    · rw [if_neg hq]
      rcases List.mem_cons.mp hp with rfl | h2
      · exact absurd hl hq
      · exact ih h2

theorem processRows_err {tm : List TimepointRec} {rows : List FlexRow}
    {row : FlexRow} (hmem : row ∈ rows)
    (herr : isErr (processRow tm row) = true) :
    isErr (processRows tm rows) = true := by
  induction rows with
  | nil => cases hmem
  | cons r rest ih =>
    unfold processRows
    cases hr : processRow tm r with
    | error e => rfl
    | ok u =>
      rcases List.mem_cons.mp hmem with rfl | h2
      · rw [hr] at herr; cases herr
      · rw [except_ok_bind]
        exact ih h2

theorem parse_err_of_dup {loaded : List String} {tm : List TimepointRec}
    {rows : List FlexRow}
    (h : isErr (checkDuplicates loaded ((rows.map (fun r => r.param)).dedup)) = true) :
    isErr (parse_flexible_params loaded tm rows) = true := by
  unfold parse_flexible_params
  cases hc : checkDuplicates loaded ((rows.map (fun r => r.param)).dedup) with
  | error e => rfl
  | ok u => rw [hc] at h; cases h

theorem parse_err_of_rows {loaded : List String} {tm : List TimepointRec}
    {rows : List FlexRow} (h : isErr (processRows tm rows) = true) :
    isErr (parse_flexible_params loaded tm rows) = true := by
  unfold parse_flexible_params
  cases hc : checkDuplicates loaded ((rows.map (fun r => r.param)).dedup) with
  | error e => rfl
  | ok u => rw [except_ok_bind]; exact h

theorem processRow_hour_err {tm : List TimepointRec} {row : FlexRow}
    {hf ht : Int} (h1 : ¬ rowAllNone row) (h2 : ¬ rowPeriodOnly row)
    (hhf : row.hour_of_day_from = FlexIdx.val hf)
    (hht : row.hour_of_day_to = FlexIdx.val ht)
    (hout : hf ∉ timepoint_mapping_hours tm ∨ ht ∉ timepoint_mapping_hours tm) :
    isErr (processRow tm row) = true := by
  unfold processRow
  rw [if_neg h1, if_neg h2, hhf, hht]
  simp only [flexInt, except_ok_bind]
  rw [if_pos hout]
  rfl

/-- Claim C9: flexible-parameter binding fails with an error whenever a
parameter named in the flexible-override table was already bound through
a direct tabular data.load call, and fails with an error whenever a
timepoint-scoped override carries an hour_of_day_from or hour_of_day_to
outside the HOURS_OF_DAY domain derived from the timepoint records. -/
theorem C9_flexible_param_binding_errors (loaded : List String)
    (tm : List TimepointRec) (rows : List FlexRow) :
    ((∃ row ∈ rows, row.param ∈ loaded) →
      isErr (parse_flexible_params loaded tm rows) = true) ∧
    (∀ row ∈ rows, ¬ rowAllNone row → ¬ rowPeriodOnly row →
      ∀ hf ht : Int, row.hour_of_day_from = FlexIdx.val hf →
        row.hour_of_day_to = FlexIdx.val ht →
        (hf ∉ timepoint_mapping_hours tm ∨ ht ∉ timepoint_mapping_hours tm) →
        isErr (parse_flexible_params loaded tm rows) = true) := by
  constructor
  · rintro ⟨row, hrow, hparam⟩
    exact parse_err_of_dup
      (checkDuplicates_err
        (List.mem_dedup.mpr (List.mem_map.mpr ⟨row, hrow, rfl⟩)) hparam)
  · intro row hrow h1 h2 hf ht hhf hht hout
    exact parse_err_of_rows
      (processRows_err hrow (processRow_hour_err h1 h2 hhf hht hout))

/-- Claim C9 witness: a row naming the already-loaded parameter
fuel_price aborts the parse, and a row with hour bounds 9 on the
four-hour day m4 (hours 1 to 4) aborts the parse. -/
theorem C9_flexible_param_binding_errors_witness :
    isErr (parse_flexible_params ["fuel_price"] m4 [rowDupW]) = true ∧
    isErr (parse_flexible_params [] m4 [rowHourW]) = true :=
  ⟨(C9_flexible_param_binding_errors ["fuel_price"] m4 [rowDupW]).1
      ⟨rowDupW, by decide, by decide⟩,
   (C9_flexible_param_binding_errors [] m4 [rowHourW]).2
      rowHourW (by decide) (by decide) (by decide) 9 9 rfl rfl (by decide)⟩
